import Mathlib

/-!
Verification development for the chart CI pipeline
(`scripts/ci/detect_changes.py`, `scripts/ci/publish_chart.py`,
`scripts/ci/common.py`).

The Python scripts are embedded shallowly:

* External collaborators (file system, `git` binary, `helm` binary,
  process environment) are modelled as explicit oracle structures whose
  fields give the observable outcome of each call.
* `CommandRunner.run` is always used with `capture=True` in these
  scripts, and in that mode it catches `subprocess.CalledProcessError`
  and returns the `(returncode, stdout, stderr)` tuple even when
  `check=True`.  Hence a non-zero exit never raises; only a failure to
  spawn the binary (an `OSError` such as `FileNotFoundError`) escapes.
  The git oracle therefore returns `Option (Nat × String × String)`:
  `none` models a spawn failure, `some` the returned tuple.
* Python `str` operations used by the scripts are re-implemented here as
  structurally recursive functions over `List Char` so that concrete
  runs reduce inside the kernel.
-/

/-! ### Python string primitives -/

/-- Python `str.startswith`. -/
def strStartsWith (s pre : String) : Bool :=
  pre.data.isPrefixOf s.data

/-- Drop the first `n` characters, as Python slicing `s[n:]`. -/
def strDrop (s : String) (n : Nat) : String :=
  ⟨s.data.drop n⟩

/-- Characters stripped by Python `str.strip()` (the ASCII whitespace
actually occurring in command output). -/
def isPyWS (c : Char) : Bool :=
  c == ' ' || c == '\t' || c == '\r' || c == '\n' || c == '\x0b' || c == '\x0c'

/-- Python `str.strip()`. -/
def strTrim (s : String) : String :=
  ⟨((s.data.dropWhile isPyWS).reverse.dropWhile isPyWS).reverse⟩

/-- Split a character list on a separator character; mirrors Python
`str.split(sep)` for a one-character separator (so `[] ↦ [[]]`). -/
def splitOnChar (c : Char) : List Char → List (List Char)
  | [] => [[]]
  | x :: xs =>
    let r := splitOnChar c xs
    if x == c then [] :: r
    else
      match r with
      | [] => [[x]]
      | h :: t => (x :: h) :: t

/-- Python `s.split("\n")`. -/
def strSplitLines (s : String) : List String :=
  (splitOnChar '\n' s.data).map (fun l => ⟨l⟩)

/-- Python `s.split("/")`. -/
def strSplitSlash (s : String) : List String :=
  (splitOnChar '/' s.data).map (fun l => ⟨l⟩)

/-- Fuel-driven worker for `pyReplace`; the fuel starts at the length of
the list, which bounds the number of steps when the pattern is
non-empty. -/
def pyReplaceAux (pat repl : List Char) : Nat → List Char → List Char
  | _, [] => []
  | 0, l => l
  | Nat.succ fuel, x :: xs =>
    if pat.isPrefixOf (x :: xs) then
      repl ++ pyReplaceAux pat repl fuel ((x :: xs).drop pat.length)
    else
      x :: pyReplaceAux pat repl fuel xs

/-- Python `s.replace(pat, repl)` for a non-empty pattern (the scripts
only use it as `registry_path.replace("oci://", "")`).  An empty pattern
is returned unchanged, a case the source never exercises. -/
def pyReplace (s pat repl : String) : String :=
  if pat.data.isEmpty then s
  else ⟨pyReplaceAux pat.data repl.data s.data.length s.data⟩

/-- Python truthiness of `os.getenv(name)`: the variable must be set and
non-empty. -/
def truthy : Option String → Bool
  | none => false
  | some s => s != ""

/-! ### External oracles -/

/-- Result of `open` + `yaml.safe_load` on a path. -/
inductive YamlVal where
  | null
  | bool (b : Bool)
  | int (n : Int)
  | str (s : String)
  | list (xs : List YamlVal)
  | map (entries : List (String × YamlVal))

/-- Outcome of reading and parsing a YAML file. -/
inductive YamlOutcome where
  | parsed (v : YamlVal)
  | parseError
  | ioError

/-- The file-system collaborator: directory tests, existence tests,
directory listings (`Path.iterdir`) and YAML reads, all observationally
fixed for one pipeline invocation. -/
structure FileSystem where
  isDir : String → Bool
  pathExists : String → Bool
  dirEntries : String → List String
  readYaml : String → YamlOutcome

/-- The `git` binary. `run args` is the observable outcome of
`CommandRunner.run(["git", *args])` with `capture=True`: `none` when the
binary cannot be spawned (`OSError`), otherwise the
`(returncode, stdout, stderr)` tuple — returned even for a non-zero
exit and even under `check=True`, because `CommandRunner.run` catches
`CalledProcessError` and returns the tuple when capturing. -/
structure GitOracle where
  run : List String → Option (Nat × String × String)

/-- The `helm` binary, assumed spawnable; `run args` is the
`(returncode, stdout, stderr)` tuple of `CommandRunner.run_helm`. -/
structure HelmOracle where
  run : List String → Nat × String × String

/-! ### `common.py`: `ChartHelper` and `ChartMetadata` -/

/-- `ChartHelper.is_valid_chart`: non-empty, not a dotfile, a directory
containing `Chart.yaml`. -/
def is_valid_chart (fs : FileSystem) (chartsDir chartName : String) : Bool :=
  if chartName == "" || strStartsWith chartName "." then false
  else if !(fs.isDir (chartsDir ++ "/" ++ chartName)) then false
  else fs.pathExists (chartsDir ++ "/" ++ chartName ++ "/Chart.yaml")

/-- `ChartHelper.get_all_charts`: empty when the charts directory is
missing, otherwise the sorted valid entries of the directory. -/
def get_all_charts (fs : FileSystem) (chartsDir : String) : List String :=
  if !(fs.pathExists chartsDir) then []
  else
    List.insertionSort (· ≤ ·)
      ((fs.dirEntries chartsDir).filter (fun n => is_valid_chart fs chartsDir n))

/-- Python truthiness of a YAML value. -/
def YamlVal.truthy : YamlVal → Bool
  | .null => false
  | .bool b => b
  | .int n => n != 0
  | .str s => s != ""
  | .list xs => !xs.isEmpty
  | .map es => !es.isEmpty

/-- Python `list(x)`: defined for iterables (`list`, `str`, `dict`),
raises `TypeError` (the `.error` case) for `None`, booleans and
numbers. -/
def pyList : YamlVal → Except Unit (List YamlVal)
  | .list xs => .ok xs
  | .str s => .ok (s.data.map (fun c => .str (String.singleton c)))
  | .map es => .ok (es.map (fun e => .str e.1))
  | .null => .error ()
  | .bool _ => .error ()
  | .int _ => .error ()

def pyQuote : String := String.singleton (Char.ofNat 39)

mutual
/-- Python `repr` of a YAML value (string escaping inside `repr` of a
`str` is not modelled; no claim depends on it). -/
def pyRepr : YamlVal → String
  | .null => "None"
  | .bool true => "True"
  | .bool false => "False"
  | .int n => toString n
  | .str s => pyQuote ++ s ++ pyQuote
  | .list xs => "[" ++ String.intercalate ", " (pyReprList xs) ++ "]"
  | .map es => "\x7b" ++ String.intercalate ", " (pyReprMap es) ++ "\x7d"

def pyReprList : List YamlVal → List String
  | [] => []
  | x :: xs => pyRepr x :: pyReprList xs

def pyReprMap : List (String × YamlVal) → List String
  | [] => []
  | (k, v) :: es => (pyQuote ++ k ++ pyQuote ++ ": " ++ pyRepr v) :: pyReprMap es
end

/-- Python `str` of a YAML value. -/
def pyStr : YamlVal → String
  | .null => "None"
  | .bool true => "True"
  | .bool false => "False"
  | .int n => toString n
  | .str s => s
  | .list xs => "[" ++ String.intercalate ", " (pyReprList xs) ++ "]"
  | .map es => "\x7b" ++ String.intercalate ", " (pyReprMap es) ++ "\x7d"

/-- `ChartMetadata` (a frozen dataclass in `common.py`). -/
structure ChartMetadata where
  name : String
  version : String
  app_version : String
  api_version : String := "v2"
  kube_version : Option String := none
  description : Option String := none
  dependencies : List YamlVal := []

/-- `ChartMetadata.from_dict`.  `data.get(k)` is `(es.lookup k).getD
.null`; `data.get(k, d)` is `(es.lookup k).getD d`.  The dependencies
field is `list(data.get("dependencies") or [])`: a falsy value yields
`[]`, a truthy non-iterable raises `TypeError` — which nothing in the
scripts catches. -/
def ChartMetadata.from_dict (es : List (String × YamlVal)) :
    Except Unit ChartMetadata :=
  let depsVal := (es.lookup "dependencies").getD .null
  match (if depsVal.truthy then pyList depsVal else .ok []) with
  | .error e => .error e
  | .ok deps =>
    .ok
      { name := pyStr ((es.lookup "name").getD (.str ""))
        version := pyStr ((es.lookup "version").getD (.str ""))
        app_version := pyStr ((es.lookup "appVersion").getD (.str ""))
        api_version := pyStr ((es.lookup "apiVersion").getD (.str "v2"))
        kube_version :=
          (let kv := (es.lookup "kubeVersion").getD .null
           if kv.truthy then some (pyStr kv) else none)
        description :=
          (let d := (es.lookup "description").getD .null
           if d.truthy then some (pyStr d) else none)
        dependencies := deps }

/-- How `ChartHelper.read_chart_metadata` can fail: `ChartNotFoundError`,
`ChartValidationError`, or the uncaught `TypeError` escaping from
`ChartMetadata.from_dict`. -/
inductive ChartErr where
  | notFound
  | validationError
  | typeError
deriving DecidableEq

/-- `ChartHelper.read_chart_metadata` (including the `get_chart_path`
checks it performs first).  `OSError` on open maps to
`ChartNotFoundError`, `yaml.YAMLError` to `ChartValidationError`, a
non-mapping document to `ChartValidationError`. -/
def read_chart_metadata (fs : FileSystem) (chartsDir chartName : String) :
    Except ChartErr ChartMetadata :=
  let chartPath := chartsDir ++ "/" ++ chartName
  if !(fs.isDir chartPath) then .error .notFound
  else if !(fs.pathExists (chartPath ++ "/Chart.yaml")) then .error .notFound
  else
    match fs.readYaml (chartPath ++ "/Chart.yaml") with
    | .ioError => .error .notFound
    | .parseError => .error .validationError
    | .parsed (.map es) =>
      match ChartMetadata.from_dict es with
      | .ok md => .ok md
      | .error _ => .error .typeError
    | .parsed _ => .error .validationError

/-! ### `detect_changes.py`: `ChartDetector` -/

/-- Environment variables consumed by `ChartDetector` /
`get_comparison_range` (`None` = unset). -/
structure DetectEnv where
  ciCommitTag : Option String
  releaseAll : Option String
  ciCommitBranch : Option String
  ciCommitBeforeSha : Option String
  mrTargetBranchName : Option String
  ci : Option String

/-- The all-zero null revision sentinel `"0" * 40`. -/
def zeroSha : String := ⟨List.replicate 40 '0'⟩

/-- `self.base_ref = os.getenv("CI_MERGE_REQUEST_TARGET_BRANCH_NAME", "main")`. -/
def baseRef (env : DetectEnv) : String :=
  env.mrTargetBranchName.getD "main"

/-- `ChartDetector.fetch_base_ref`: skipped outside CI; the fetch result
is discarded and every exception is caught, so the call has no
observable effect on the detector's output. -/
def fetch_base_ref (env : DetectEnv) (git : GitOracle) : Unit :=
  if truthy env.ci then
    match git.run ["fetch", "origin", baseRef env, "--depth=50"] with
    | some _ => ()
    | none => ()
  else ()

/-- `ChartDetector.get_comparison_range`; `none` means "process all
charts".  On a feature branch the `try`/`except` around
`run_git("rev-parse", ..., check=True)` only catches spawn failures:
`CommandRunner.run` swallows `CalledProcessError` when capturing, so a
non-zero `rev-parse` exit still reaches the `origin/<base>...HEAD`
return. -/
def get_comparison_range (env : DetectEnv) (git : GitOracle) : Option String :=
  if truthy env.ciCommitTag then none
  else if truthy env.releaseAll then none
  else
    let currentBranch := env.ciCommitBranch.getD ""
    if currentBranch == "main" || currentBranch == "master" then
      let beforeSha := env.ciCommitBeforeSha.getD ""
      if beforeSha != "" && beforeSha != zeroSha then
        some (beforeSha ++ "..HEAD")
      else
        some "HEAD~1..HEAD"
    else
      let _ := fetch_base_ref env git
      match git.run ["rev-parse", "origin/" ++ baseRef env] with
      | some _ => some ("origin/" ++ baseRef env ++ "...HEAD")
      | none => some "HEAD~1..HEAD"

/-- The per-instance `self._git_cache : dict[str, set[str]]`. -/
abbrev GitCache := List (String × List String)

/-- `ChartDetector.get_changed_files`: cache lookup first; a spawn
failure (caught by the `except`) or a non-zero diff exit yields the
empty set uncached; a zero exit splits the stripped stdout on newlines
(empty stdout = empty set) and caches the result. -/
def get_changed_files_cached (git : GitOracle) (cache : GitCache)
    (comparison : String) : List String × GitCache :=
  match cache.lookup comparison with
  | some files => (files, cache)
  | none =>
    match git.run ["diff", "--name-only", comparison] with
    | none => ([], cache)
    | some (code, out, _) =>
      if code != 0 then ([], cache)
      else
        let files :=
          if strTrim out == "" then []
          else (strSplitLines (strTrim out)).dedup
        (files, (comparison, files) :: cache)

/-- The chart-name candidate of one changed path: the path must start
with `<chartsDir>/`, and the candidate is the first component of the
remainder as `pathlib` computes `Path(p).relative_to(chartsDir).parts`
(empty and `"."` components are normalised away). -/
def chartNameOfPath (chartsDir p : String) : Option String :=
  if strStartsWith p (chartsDir ++ "/") then
    (strSplitSlash (strDrop p (chartsDir.data.length + 1))).find?
      (fun seg => seg != "" && seg != ".")
  else none

/-- `ChartDetector.extract_chart_names`: keep the candidate of each
path under the charts directory when `is_valid_chart` accepts it. -/
def extract_chart_names (fs : FileSystem) (chartsDir : String)
    (files : List String) : List String :=
  files.filterMap (fun p =>
    match chartNameOfPath chartsDir p with
    | none => none
    | some chartName =>
      if is_valid_chart fs chartsDir chartName then some chartName else none)

/-- `ChartDetector.detect_changes`, threading the git-diff cache:
process all charts when the range is `none`; otherwise diff, extract,
and return the sorted set of names (empty results short-circuit). -/
def detect_changes (env : DetectEnv) (git : GitOracle) (fs : FileSystem)
    (chartsDir : String) (cache : GitCache) : List String × GitCache :=
  match get_comparison_range env git with
  | none => (get_all_charts fs chartsDir, cache)
  | some comparison =>
    match get_changed_files_cached git cache comparison with
    | (changedFiles, cache') =>
      if changedFiles.isEmpty then ([], cache')
      else
        let chartNames := extract_chart_names fs chartsDir changedFiles
        if chartNames.isEmpty then ([], cache')
        else (List.insertionSort (· ≤ ·) chartNames.dedup, cache')

/-! ### `publish_chart.py`: `ChartPublisher` and `main` -/

/-- Environment variables consumed by `ChartPublisher.get_registry_path`. -/
structure RegistryEnv where
  ciRegistryImage : Option String
  registryHost : Option String
  registryOwner : Option String
  registryProject : Option String

/-- `ChartPublisher.get_registry_path`: a truthy `CI_REGISTRY_IMAGE`
takes precedence over the composed host/owner/project fallback. -/
def get_registry_path (renv : RegistryEnv) : String :=
  if truthy renv.ciRegistryImage then
    "oci://" ++ renv.ciRegistryImage.getD ""
  else
    "oci://" ++ renv.registryHost.getD "registry.example.com" ++ "/"
      ++ renv.registryOwner.getD "homelab" ++ "/"
      ++ renv.registryProject.getD "helm-charts"

/-- `ChartPublisher.chart_version_exists`: the version exists iff
`helm show chart oci://<path>/<name> --version <v>` exits zero. -/
def chart_version_exists (helm : HelmOracle)
    (registryPath chartName version : String) : Bool :=
  (helm.run
    ["show", "chart", "oci://" ++ registryPath ++ "/" ++ chartName,
     "--version", version]).1 == 0

/-- Observable outcome of one `ChartPublisher.publish_chart` call:
the returned boolean plus how many registry existence queries and how
many pushes were performed. -/
structure PublishOutcome where
  success : Bool
  existenceChecks : Nat
  pushAttempts : Nat
deriving DecidableEq

/-- `ChartPublisher.publish_chart`.  `ChartNotFoundError` and
`ChartValidationError` from the metadata read return `False`; the
uncaught `TypeError` (`ChartErr.typeError`) escapes as `.error ()`.
A missing package file returns `False` before any registry access; an
existing version returns `True` without pushing; otherwise the result
is the push's success (`_push_to_registry`). -/
def publish_chart (fs : FileSystem) (helm : HelmOracle) (renv : RegistryEnv)
    (chartsDir packagesDir chartName : String) : Except Unit PublishOutcome :=
  match read_chart_metadata fs chartsDir chartName with
  | .error .typeError => .error ()
  | .error _ => .ok ⟨false, 0, 0⟩
  | .ok metadata =>
    let packageFile :=
      packagesDir ++ "/" ++ chartName ++ "-" ++ metadata.version ++ ".tgz"
    if !(fs.pathExists packageFile) then .ok ⟨false, 0, 0⟩
    else
      let registryPath := get_registry_path renv
      let registryPathClean := pyReplace registryPath "oci://" ""
      if chart_version_exists helm registryPathClean chartName metadata.version
      then .ok ⟨true, 1, 0⟩
      else
        if (helm.run ["push", packageFile, registryPath, "--debug"]).1 == 0
        then .ok ⟨true, 1, 1⟩
        else .ok ⟨false, 1, 1⟩

/-- The publish loop of `publish_chart.py main`: each chart is
published in turn, failed names are collected in order, successes are
counted; an uncaught exception (`.error`) aborts the remaining charts. -/
def publishRun (fs : FileSystem) (helm : HelmOracle) (renv : RegistryEnv)
    (chartsDir packagesDir : String) :
    List String → Except Unit (List String × Nat)
  | [] => .ok ([], 0)
  | chartName :: rest =>
    match publish_chart fs helm renv chartsDir packagesDir chartName with
    | .error e => .error e
    | .ok r =>
      match publishRun fs helm renv chartsDir packagesDir rest with
      | .error e => .error e
      | .ok (failedCharts, publishedCount) =>
        if r.success then .ok (failedCharts, publishedCount + 1)
        else .ok (chartName :: failedCharts, publishedCount)

/-- Process exit code of the publish run: `ExitCode.FAILURE` (1) when
the failed list is non-empty, `ExitCode.SUCCESS` (0) otherwise; an
uncaught exception makes the interpreter exit with code 1. -/
def publishRunExitCode (fs : FileSystem) (helm : HelmOracle)
    (renv : RegistryEnv) (chartsDir packagesDir : String)
    (chartNames : List String) : Nat :=
  match publishRun fs helm renv chartsDir packagesDir chartNames with
  | .error _ => 1
  | .ok (failedCharts, _) => if failedCharts.isEmpty then 0 else 1

/-- Whether `publish_chart` returns at all (no uncaught exception). -/
def publishCompletes (fs : FileSystem) (helm : HelmOracle)
    (renv : RegistryEnv) (chartsDir packagesDir chartName : String) : Bool :=
  match publish_chart fs helm renv chartsDir packagesDir chartName with
  | .ok _ => true
  | .error _ => false

/-- Whether `publish_chart` returns `True`. -/
def publishSucceeds (fs : FileSystem) (helm : HelmOracle)
    (renv : RegistryEnv) (chartsDir packagesDir chartName : String) : Bool :=
  match publish_chart fs helm renv chartsDir packagesDir chartName with
  | .ok r => r.success
  | .error _ => false

/-! ### Concrete fixtures used by witnesses and counterexamples -/

/-- A git oracle whose every command spawns and exits zero. -/
def wGitAny : GitOracle := ⟨fun _ => some (0, "", "")⟩

/-- A git oracle whose `diff` exits 1 and whose other commands exit 0. -/
def wGitDiffFail : GitOracle :=
  ⟨fun args =>
    if args.head? = some "diff" then some (1, "", "fatal: bad revision")
    else some (0, "", "")⟩

/-- A git oracle on which `rev-parse` exits 128 (the base ref is not
resolvable) while everything else exits 0. -/
def cexGitNoBaseRef : GitOracle :=
  ⟨fun args =>
    if args.head? = some "rev-parse" then some (128, "", "fatal: unknown revision")
    else some (0, "", "")⟩

/-- Feature-branch environment: no tag, no release-all, branch
`feature`, default base branch. -/
def cexEnvFeature : DetectEnv :=
  ⟨none, none, some "feature", none, none, some "true"⟩

/-- A helm oracle whose every command exits zero (`show chart` finds the
version; a push would succeed). -/
def wHelmZero : HelmOracle := ⟨fun _ => (0, "", "")⟩

/-- A helm oracle whose every command exits one (`show chart` does not
find the version; a push fails). -/
def wHelmOne : HelmOracle := ⟨fun _ => (1, "", "Error: failed")⟩

/-- Registry environment with no variables set, so the composed
`registry.example.com/homelab/helm-charts` fallback applies. -/
def wRegDefault : RegistryEnv := ⟨none, none, none, none⟩

/-- File system with one well-formed chart `alpha` (version `1.0.0`)
whose built package exists. -/
def wFSAlpha : FileSystem :=
  { isDir := fun p => p == "charts/alpha"
    pathExists := fun p =>
      p == "charts/alpha/Chart.yaml" || p == ".packages/alpha-1.0.0.tgz"
    dirEntries := fun _ => ["alpha"]
    readYaml := fun p =>
      if p == "charts/alpha/Chart.yaml" then
        .parsed (.map [("name", .str "alpha"), ("version", .str "1.0.0"),
                       ("appVersion", .str "1.0")])
      else .ioError }

/-- File system with chart `alpha` readable but its package file absent. -/
def wFSAlphaNoPkg : FileSystem :=
  { isDir := fun p => p == "charts/alpha"
    pathExists := fun p => p == "charts/alpha/Chart.yaml"
    dirEntries := fun _ => ["alpha"]
    readYaml := fun p =>
      if p == "charts/alpha/Chart.yaml" then
        .parsed (.map [("name", .str "alpha"), ("version", .str "1.0.0"),
                       ("appVersion", .str "1.0")])
      else .ioError }

/-- File system where chart `bad` has a manifest whose `dependencies`
value is the (truthy, non-iterable) integer 1, and chart `good` is
well-formed with its package built. -/
def cexFSBadDeps : FileSystem :=
  { isDir := fun p => p == "charts/bad" || p == "charts/good"
    pathExists := fun p =>
      p == "charts/bad/Chart.yaml" || p == "charts/good/Chart.yaml" ||
      p == ".packages/good-1.0.0.tgz"
    dirEntries := fun _ => ["bad", "good"]
    readYaml := fun p =>
      if p == "charts/bad/Chart.yaml" then
        .parsed (.map [("dependencies", .int 1)])
      else if p == "charts/good/Chart.yaml" then
        .parsed (.map [("name", .str "good"), ("version", .str "1.0.0"),
                       ("appVersion", .str "1.0")])
      else .ioError }

/-- File system with a chart `plain` whose manifest is the empty
mapping (every field absent). -/
def wFSEmptyMeta : FileSystem :=
  { isDir := fun p => p == "charts/plain"
    pathExists := fun p => p == "charts/plain/Chart.yaml"
    dirEntries := fun _ => ["plain"]
    readYaml := fun p =>
      if p == "charts/plain/Chart.yaml" then .parsed (.map [])
      else .ioError }

/-- File system with chart `alpha` well-formed and packaged, and chart
`miss` readable but with no built package. -/
def wFSAlphaMiss : FileSystem :=
  { isDir := fun p => p == "charts/alpha" || p == "charts/miss"
    pathExists := fun p =>
      p == "charts/alpha/Chart.yaml" || p == "charts/miss/Chart.yaml" ||
      p == ".packages/alpha-1.0.0.tgz"
    dirEntries := fun _ => ["alpha", "miss"]
    readYaml := fun p =>
      if p == "charts/alpha/Chart.yaml" then
        .parsed (.map [("name", .str "alpha"), ("version", .str "1.0.0"),
                       ("appVersion", .str "1.0")])
      else if p == "charts/miss/Chart.yaml" then
        .parsed (.map [("name", .str "miss"), ("version", .str "2.0.0"),
                       ("appVersion", .str "2.0")])
      else .ioError }

/-! ### Claims about the revision range resolver -/

/-- C4: whatever the other environment signals and whatever git
answers, a truthy `CI_COMMIT_TAG` makes `get_comparison_range` return
`none`, the "process all charts" sentinel. -/
theorem resolve_tag_returns_all (env : DetectEnv) (git : GitOracle)
    (htag : truthy env.ciCommitTag = true) :
    get_comparison_range env git = none := by
  unfold get_comparison_range
  rw [htag]
  rfl

theorem resolve_tag_returns_all_witness :
    get_comparison_range
      ⟨some "v1.0.0", some "1", some "feature", some "abc", some "develop",
       some "true"⟩ wGitAny = none :=
  resolve_tag_returns_all _ _ rfl

/-- C5: with no tag and no release-all signal, on a trunk branch
(`main` or `master`) the resolver returns `<before>..HEAD` when the
before revision is set, non-empty and not the all-zero sentinel, and
`HEAD~1..HEAD` otherwise. -/
theorem resolve_trunk_branch (env : DetectEnv) (git : GitOracle)
    (htag : truthy env.ciCommitTag = false)
    (hall : truthy env.releaseAll = false)
    (hbr : env.ciCommitBranch.getD "" = "main"
            ∨ env.ciCommitBranch.getD "" = "master") :
    get_comparison_range env git =
      (if (env.ciCommitBeforeSha.getD "") != ""
          && (env.ciCommitBeforeSha.getD "") != zeroSha
       then some ((env.ciCommitBeforeSha.getD "") ++ "..HEAD")
       else some "HEAD~1..HEAD") := by
  unfold get_comparison_range
  rw [htag, hall]
  rcases hbr with h | h <;> rw [h] <;> rfl

theorem resolve_trunk_branch_witness :
    get_comparison_range ⟨none, none, some "main", some "abc123", none, none⟩
        wGitAny = some "abc123..HEAD" :=
  resolve_trunk_branch _ _ rfl rfl (Or.inl rfl)

/-- C6: on a feature branch the claimed fallback does not happen.  With
no tag and no release-all signal, base branch `main`, and `git
rev-parse origin/main` exiting 128 (ref not resolvable), the resolver
still returns `origin/main...HEAD` instead of falling back to
`HEAD~1..HEAD`: `CommandRunner.run` swallows `CalledProcessError` when
capturing, so the `except` branch of `get_comparison_range` is
reachable only when the git binary cannot be spawned at all. -/
theorem resolve_feature_ignores_revparse_failure :
    cexGitNoBaseRef.run ["rev-parse", "origin/main"]
        = some (128, "", "fatal: unknown revision")
    ∧ get_comparison_range cexEnvFeature cexGitNoBaseRef
        = some "origin/main...HEAD" :=
  ⟨rfl, rfl⟩

/-! ### Claims about the idempotent publisher -/

/-- C1: when the chart metadata is readable, the built package file
exists, and the registry existence check reports that name:version
already exists, `publish_chart` returns `True` after exactly one
existence query and zero push attempts. -/
theorem publish_skip_existing (fs : FileSystem) (helm : HelmOracle)
    (renv : RegistryEnv) (chartsDir packagesDir chartName : String)
    (md : ChartMetadata)
    (hmd : read_chart_metadata fs chartsDir chartName = .ok md)
    (hpkg : fs.pathExists
        (packagesDir ++ "/" ++ chartName ++ "-" ++ md.version ++ ".tgz") = true)
    (hex : chart_version_exists helm
        (pyReplace (get_registry_path renv) "oci://" "") chartName md.version
        = true) :
    publish_chart fs helm renv chartsDir packagesDir chartName
      = .ok ⟨true, 1, 0⟩ := by
  unfold publish_chart
  rw [hmd]
  simp only [hpkg, hex, Bool.not_true, Bool.false_eq_true, if_false, if_true]

theorem publish_skip_existing_witness :
    publish_chart wFSAlpha wHelmZero wRegDefault "charts" ".packages" "alpha"
      = .ok ⟨true, 1, 0⟩ :=
  publish_skip_existing _ _ _ _ _ _
    { name := "alpha", version := "1.0.0", app_version := "1.0" }
    rfl rfl rfl

/-- C2: when the chart metadata is readable but the built package file
`<packages_dir>/<name>-<version>.tgz` does not exist, `publish_chart`
returns `False` with zero registry existence queries and zero push
attempts. -/
theorem publish_missing_package (fs : FileSystem) (helm : HelmOracle)
    (renv : RegistryEnv) (chartsDir packagesDir chartName : String)
    (md : ChartMetadata)
    (hmd : read_chart_metadata fs chartsDir chartName = .ok md)
    (hpkg : fs.pathExists
        (packagesDir ++ "/" ++ chartName ++ "-" ++ md.version ++ ".tgz")
        = false) :
    publish_chart fs helm renv chartsDir packagesDir chartName
      = .ok ⟨false, 0, 0⟩ := by
  unfold publish_chart
  rw [hmd]
  simp only [hpkg, Bool.not_false, if_true]

theorem publish_missing_package_witness :
    publish_chart wFSAlphaNoPkg wHelmZero wRegDefault "charts" ".packages"
        "alpha" = .ok ⟨false, 0, 0⟩ :=
  publish_missing_package _ _ _ _ _ _
    { name := "alpha", version := "1.0.0", app_version := "1.0" }
    rfl rfl

/-- C3: soft-failure policy.  (1) An uncached diff whose git command
exits non-zero yields the empty change set (and the embedding returns a
value, never an exception).  (2) The registry existence check reports
"exists" exactly when the `helm show chart` query exits zero, so a
failing query counts as "does not exist".  (3) With the preconditions
met and the version absent, the publish result is exactly the push's
success: only a failing push produces a failure result. -/
theorem soft_failure_hard_push (git : GitOracle) (helm : HelmOracle) :
    (∀ (cache : GitCache) (comparison : String) (code : Nat) (out err : String),
        git.run ["diff", "--name-only", comparison] = some (code, out, err) →
        code ≠ 0 → cache.lookup comparison = none →
        (get_changed_files_cached git cache comparison).1 = [])
    ∧ (∀ registryPath chartName version : String,
        chart_version_exists helm registryPath chartName version = true ↔
          (helm.run
            ["show", "chart", "oci://" ++ registryPath ++ "/" ++ chartName,
             "--version", version]).1 = 0)
    ∧ (∀ (fs : FileSystem) (renv : RegistryEnv)
          (chartsDir packagesDir chartName : String) (md : ChartMetadata),
        read_chart_metadata fs chartsDir chartName = .ok md →
        fs.pathExists
          (packagesDir ++ "/" ++ chartName ++ "-" ++ md.version ++ ".tgz")
          = true →
        chart_version_exists helm
          (pyReplace (get_registry_path renv) "oci://" "") chartName
          md.version = false →
        publish_chart fs helm renv chartsDir packagesDir chartName =
          (if (helm.run
                ["push",
                 packagesDir ++ "/" ++ chartName ++ "-" ++ md.version ++ ".tgz",
                 get_registry_path renv, "--debug"]).1 == 0
           then .ok ⟨true, 1, 1⟩ else .ok ⟨false, 1, 1⟩)) := by
  refine ⟨?_, ?_, ?_⟩
  · intro cache comparison code out err hrun hcode hcache
    unfold get_changed_files_cached
    rw [hcache, hrun]
    have : (code != 0) = true := by simpa using hcode
    simp [this]
  · intro registryPath chartName version
    unfold chart_version_exists
    exact beq_iff_eq
  · intro fs renv chartsDir packagesDir chartName md hmd hpkg hex
    unfold publish_chart
    rw [hmd]
    simp only [hpkg, hex, Bool.not_true, Bool.false_eq_true, if_false]

theorem soft_failure_hard_push_witness :
    (get_changed_files_cached wGitDiffFail [] "HEAD~1..HEAD").1 = []
    ∧ (chart_version_exists wHelmOne "registry.example.com/homelab/helm-charts"
          "alpha" "1.0.0" = true ↔
        (wHelmOne.run
          ["show", "chart",
           "oci://registry.example.com/homelab/helm-charts/alpha",
           "--version", "1.0.0"]).1 = 0)
    ∧ publish_chart wFSAlpha wHelmOne wRegDefault "charts" ".packages" "alpha"
        = .ok ⟨false, 1, 1⟩ := by
  obtain ⟨h1, h2, h3⟩ := soft_failure_hard_push wGitDiffFail wHelmOne
  refine ⟨h1 [] "HEAD~1..HEAD" 1 "" "fatal: bad revision" rfl one_ne_zero rfl,
          h2 "registry.example.com/homelab/helm-charts" "alpha" "1.0.0", ?_⟩
  exact h3 wFSAlpha wRegDefault "charts" ".packages" "alpha"
    { name := "alpha", version := "1.0.0", app_version := "1.0" } rfl rfl rfl

/-! ### Claims about the change set extractor -/

/-- C7: a name is in the extracted change set exactly when some changed
path lies strictly under the charts root with that name as the first
path segment below the root, and the scanner validates the name.  In
particular paths outside the root never contribute, and a candidate
without a manifest is discarded. -/
theorem extract_chart_names_mem (fs : FileSystem) (chartsDir : String)
    (files : List String) (chartName : String) :
    chartName ∈ extract_chart_names fs chartsDir files ↔
      ((∃ p ∈ files, chartNameOfPath chartsDir p = some chartName)
        ∧ is_valid_chart fs chartsDir chartName = true) := by
  unfold extract_chart_names
  rw [List.mem_filterMap]
  constructor
  · rintro ⟨p, hp, hf⟩
    cases hcp : chartNameOfPath chartsDir p with
    | none => simp only [hcp] at hf; cases hf
    | some nm =>
      simp only [hcp] at hf
      by_cases hv : is_valid_chart fs chartsDir nm = true
      · rw [if_pos hv] at hf
        injection hf with hnm
        subst hnm
        exact ⟨⟨p, hp, hcp⟩, hv⟩
      · rw [if_neg hv] at hf; cases hf
  · rintro ⟨⟨p, hp, hcp⟩, hv⟩
    refine ⟨p, hp, ?_⟩
    simp only [hcp]
    rw [if_pos hv]

/-- Re-querying the diff cache for the same comparison returns the same
file set: a successful diff was cached, a failed one is recomputed with
the same (deterministic) outcome. -/
theorem get_changed_files_cached_repeat (git : GitOracle) (cache : GitCache)
    (comparison : String) :
    (get_changed_files_cached git
        (get_changed_files_cached git cache comparison).2 comparison).1
      = (get_changed_files_cached git cache comparison).1 := by
  unfold get_changed_files_cached
  cases hl : cache.lookup comparison with
  | some files => simp [hl]
  | none =>
    cases hr : git.run ["diff", "--name-only", comparison] with
    | none => simp [hl, hr]
    | some r =>
      obtain ⟨code, out, err⟩ := r
      by_cases hc : (code != 0) = true
      · simp [hl, hr, hc]
      · simp [hl, hr, hc, List.lookup]

/-- Unfolding equation of `detect_changes` when the resolver returns
the all-charts sentinel. -/
theorem detect_changes_eq_none (env : DetectEnv) (git : GitOracle)
    (fs : FileSystem) (chartsDir : String) (cache : GitCache)
    (hc : get_comparison_range env git = none) :
    detect_changes env git fs chartsDir cache
      = (get_all_charts fs chartsDir, cache) := by
  unfold detect_changes
  rw [hc]

/-- Unfolding equation of `detect_changes` when the resolver returns a
concrete comparison range. -/
theorem detect_changes_eq_some (env : DetectEnv) (git : GitOracle)
    (fs : FileSystem) (chartsDir : String) (cache : GitCache)
    (comparison : String)
    (hc : get_comparison_range env git = some comparison) :
    detect_changes env git fs chartsDir cache
      = (if (get_changed_files_cached git cache comparison).1.isEmpty then
           ([], (get_changed_files_cached git cache comparison).2)
         else if (extract_chart_names fs chartsDir
             (get_changed_files_cached git cache comparison).1).isEmpty then
           ([], (get_changed_files_cached git cache comparison).2)
         else
           (List.insertionSort (· ≤ ·)
              (extract_chart_names fs chartsDir
                (get_changed_files_cached git cache comparison).1).dedup,
            (get_changed_files_cached git cache comparison).2)) := by
  unfold detect_changes
  rw [hc]

/-- `get_all_charts` returns a sorted list. -/
theorem get_all_charts_sorted (fs : FileSystem) (chartsDir : String) :
    List.Sorted (· ≤ ·) (get_all_charts fs chartsDir) := by
  unfold get_all_charts
  by_cases h : (!(fs.pathExists chartsDir)) = true
  · rw [if_pos h]; exact List.sorted_nil
  · rw [if_neg h]; exact List.sorted_insertionSort _ _

/-- Every output of `detect_changes` is sorted. -/
theorem detect_changes_sorted (env : DetectEnv) (git : GitOracle)
    (fs : FileSystem) (chartsDir : String) (cache : GitCache) :
    List.Sorted (· ≤ ·) (detect_changes env git fs chartsDir cache).1 := by
  cases hc : get_comparison_range env git with
  | none =>
    rw [detect_changes_eq_none env git fs chartsDir cache hc]
    exact get_all_charts_sorted fs chartsDir
  | some comparison =>
    rw [detect_changes_eq_some env git fs chartsDir cache comparison hc]
    split_ifs
    · exact List.sorted_nil
    · exact List.sorted_nil
    · exact List.sorted_insertionSort _ _

/-- C9: the change-detection pipeline is deterministic — run a second
time over the same environment, git behaviour and file system
(threading the per-instance diff cache), it returns the same chart
list — and its output is always sorted lexicographically. -/
theorem detect_changes_deterministic_sorted (env : DetectEnv)
    (git : GitOracle) (fs : FileSystem) (chartsDir : String)
    (cache : GitCache) :
    (detect_changes env git fs chartsDir
        (detect_changes env git fs chartsDir cache).2).1
      = (detect_changes env git fs chartsDir cache).1
    ∧ List.Sorted (· ≤ ·) (detect_changes env git fs chartsDir cache).1 := by
  refine ⟨?_, detect_changes_sorted env git fs chartsDir cache⟩
  cases hc : get_comparison_range env git with
  | none =>
    rw [detect_changes_eq_none env git fs chartsDir cache hc]
    rw [detect_changes_eq_none env git fs chartsDir cache hc]
  | some comparison =>
    have hrep := get_changed_files_cached_repeat git cache comparison
    rw [detect_changes_eq_some env git fs chartsDir cache comparison hc]
    have hsnd :
        (if (get_changed_files_cached git cache comparison).1.isEmpty then
           ([], (get_changed_files_cached git cache comparison).2)
         else if (extract_chart_names fs chartsDir
             (get_changed_files_cached git cache comparison).1).isEmpty then
           ([], (get_changed_files_cached git cache comparison).2)
         else
           (List.insertionSort (· ≤ ·)
              (extract_chart_names fs chartsDir
                (get_changed_files_cached git cache comparison).1).dedup,
            (get_changed_files_cached git cache comparison).2)).2
          = (get_changed_files_cached git cache comparison).2 := by
      split_ifs <;> rfl
    rw [hsnd]
    rw [detect_changes_eq_some env git fs chartsDir
      (get_changed_files_cached git cache comparison).2 comparison hc]
    rw [hrep]
    split_ifs <;> rfl

/-! ### Claims about the publish run -/

/-- When every chart's `publish_chart` call returns (no uncaught
exception), the run completes with exactly the failing names, in input
order, and counts exactly the successes. -/
theorem publishRun_eq (fs : FileSystem) (helm : HelmOracle)
    (renv : RegistryEnv) (chartsDir packagesDir : String)
    (chartNames : List String)
    (h : ∀ n ∈ chartNames,
        publishCompletes fs helm renv chartsDir packagesDir n = true) :
    publishRun fs helm renv chartsDir packagesDir chartNames =
      .ok (chartNames.filter
            (fun n => !(publishSucceeds fs helm renv chartsDir packagesDir n)),
           (chartNames.filter
            (fun n => publishSucceeds fs helm renv chartsDir packagesDir n)).length) := by
  induction chartNames with
  | nil => rfl
  | cons n rest ih =>
    have hn := h n (List.mem_cons_self n rest)
    have hrest := fun m hm => h m (List.mem_cons_of_mem n hm)
    obtain ⟨r, hr⟩ : ∃ r,
        publish_chart fs helm renv chartsDir packagesDir n = .ok r := by
      unfold publishCompletes at hn
      cases hpc : publish_chart fs helm renv chartsDir packagesDir n with
      | ok r => exact ⟨r, rfl⟩
      | error e => rw [hpc] at hn; cases hn
    have hs : publishSucceeds fs helm renv chartsDir packagesDir n
        = r.success := by
      unfold publishSucceeds
      rw [hr]
    unfold publishRun
    rw [hr, ih hrest]
    cases hb : r.success with
    | true => simp [List.filter_cons, hs, hb]
    | false => simp [List.filter_cons, hs, hb]

/-- C8 amended: provided no chart's metadata read escapes with an
uncaught exception, every chart name in the list is processed — the run
returns the complete per-name accounting (failed names in order,
success count) — and the process exit code is non-zero iff the
collected failed list is non-empty. -/
theorem publish_run_accounting (fs : FileSystem) (helm : HelmOracle)
    (renv : RegistryEnv) (chartsDir packagesDir : String)
    (chartNames : List String)
    (h : ∀ n ∈ chartNames,
        publishCompletes fs helm renv chartsDir packagesDir n = true) :
    publishRun fs helm renv chartsDir packagesDir chartNames =
      .ok (chartNames.filter
            (fun n => !(publishSucceeds fs helm renv chartsDir packagesDir n)),
           (chartNames.filter
            (fun n => publishSucceeds fs helm renv chartsDir packagesDir n)).length)
    ∧ (publishRunExitCode fs helm renv chartsDir packagesDir chartNames ≠ 0 ↔
        chartNames.filter
          (fun n => !(publishSucceeds fs helm renv chartsDir packagesDir n))
          ≠ []) := by
  have heq := publishRun_eq fs helm renv chartsDir packagesDir chartNames h
  refine ⟨heq, ?_⟩
  unfold publishRunExitCode
  rw [heq]
  cases hf : chartNames.filter
      (fun n => !(publishSucceeds fs helm renv chartsDir packagesDir n)) with
  | nil => simp
  | cons a l => simp

theorem publish_run_accounting_witness :
    publishRun wFSAlphaMiss wHelmZero wRegDefault "charts" ".packages"
        ["alpha", "miss"] = .ok (["miss"], 1)
    ∧ publishRunExitCode wFSAlphaMiss wHelmZero wRegDefault "charts"
        ".packages" ["alpha", "miss"] ≠ 0 := by
  obtain ⟨h1, h2⟩ := publish_run_accounting wFSAlphaMiss wHelmZero wRegDefault
    "charts" ".packages" ["alpha", "miss"] (by decide)
  exact ⟨h1.trans rfl, h2.mpr (by decide)⟩

/-- C8 counterexample: with chart `bad` carrying a manifest whose
`dependencies` value is the integer 1, the run over `["bad", "good"]`
aborts with an uncaught `TypeError` — `good` (which on its own would
publish successfully) is never processed, and the interpreter exits 1
with no failed-name accounting. -/
theorem publish_run_aborts_cex :
    publishRun cexFSBadDeps wHelmZero wRegDefault "charts" ".packages"
        ["bad", "good"] = .error ()
    ∧ publish_chart cexFSBadDeps wHelmZero wRegDefault "charts" ".packages"
        "good" = .ok ⟨true, 1, 0⟩
    ∧ publishRunExitCode cexFSBadDeps wHelmZero wRegDefault "charts"
        ".packages" ["bad", "good"] = 1 :=
  ⟨rfl, rfl, rfl⟩

/-! ### Claims about metadata reading -/

/-- Zeta-reduced unfolding equation of `read_chart_metadata`. -/
theorem read_chart_metadata_eq (fs : FileSystem) (cd cn : String) :
    read_chart_metadata fs cd cn =
      (if !(fs.isDir (cd ++ "/" ++ cn)) then .error .notFound
       else if !(fs.pathExists (cd ++ "/" ++ cn ++ "/Chart.yaml")) then
         .error .notFound
       else
         match fs.readYaml (cd ++ "/" ++ cn ++ "/Chart.yaml") with
         | .ioError => .error .notFound
         | .parseError => .error .validationError
         | .parsed (.map es) =>
           match ChartMetadata.from_dict es with
           | .ok md => .ok md
           | .error _ => .error .typeError
         | .parsed _ => .error .validationError) := rfl

/-- `ChartMetadata.from_dict` succeeds whenever the `dependencies`
value (if present and truthy) is iterable, and the name, version and
appVersion fields are the stringified looked-up values with `""` as the
lookup default. -/
theorem from_dict_ok (es : List (String × YamlVal))
    (hdeps : ∀ v, es.lookup "dependencies" = some v → v.truthy = true →
        pyList v ≠ .error ()) :
    ∃ md, ChartMetadata.from_dict es = .ok md
      ∧ md.name = pyStr ((es.lookup "name").getD (.str ""))
      ∧ md.version = pyStr ((es.lookup "version").getD (.str ""))
      ∧ md.app_version = pyStr ((es.lookup "appVersion").getD (.str "")) := by
  unfold ChartMetadata.from_dict
  cases hld : es.lookup "dependencies" with
  | none =>
    simp only [hld, Option.getD_none]
    exact ⟨_, rfl, rfl, rfl, rfl⟩
  | some v =>
    simp only [hld, Option.getD_some]
    by_cases htr : v.truthy = true
    · have hne := hdeps v hld htr
      rw [if_pos htr]
      cases hpl : pyList v with
      | error e => cases e; exact absurd hpl hne
      | ok deps => exact ⟨_, rfl, rfl, rfl, rfl⟩
    · rw [if_neg htr]
      exact ⟨_, rfl, rfl, rfl, rfl⟩

/-- C10 amended: for every manifest file that parses to a YAML mapping
whose `dependencies` value (when present and truthy) is iterable,
`read_chart_metadata` succeeds, with `name`, `version` and `appVersion`
defaulting to the empty string when absent; and `ValidationError`
arises only when the content fails to parse or does not parse to a
mapping — never for missing fields.  (A truthy non-iterable
`dependencies` value instead escapes as an uncaught `TypeError`, see
the counterexample.) -/
theorem read_metadata_missing_fields_default (fs : FileSystem)
    (chartsDir chartName : String) (es : List (String × YamlVal))
    (hdir : fs.isDir (chartsDir ++ "/" ++ chartName) = true)
    (hfile : fs.pathExists (chartsDir ++ "/" ++ chartName ++ "/Chart.yaml")
        = true)
    (hread : fs.readYaml (chartsDir ++ "/" ++ chartName ++ "/Chart.yaml")
        = .parsed (.map es))
    (hdeps : ∀ v, es.lookup "dependencies" = some v → v.truthy = true →
        pyList v ≠ .error ()) :
    (∃ md, read_chart_metadata fs chartsDir chartName = .ok md
      ∧ (es.lookup "name" = none → md.name = "")
      ∧ (es.lookup "version" = none → md.version = "")
      ∧ (es.lookup "appVersion" = none → md.app_version = ""))
    ∧ (∀ (fs' : FileSystem) (cd' cn' : String),
        read_chart_metadata fs' cd' cn' = .error .validationError →
        fs'.readYaml (cd' ++ "/" ++ cn' ++ "/Chart.yaml") = .parseError
        ∨ ∃ v, fs'.readYaml (cd' ++ "/" ++ cn' ++ "/Chart.yaml") = .parsed v
            ∧ ∀ es', v ≠ YamlVal.map es') := by
  constructor
  · obtain ⟨md, hmd, h1, h2, h3⟩ := from_dict_ok es hdeps
    refine ⟨md, ?_, ?_, ?_, ?_⟩
    · rw [read_chart_metadata_eq]
      simp only [hdir, hfile, hread, Bool.not_true, Bool.false_eq_true,
        if_false, hmd]
    · intro hn; rw [h1, hn]; rfl
    · intro hn; rw [h2, hn]; rfl
    · intro hn; rw [h3, hn]; rfl
  · intro fs' cd' cn' herr
    rw [read_chart_metadata_eq] at herr
    by_cases hd1 : (!(fs'.isDir (cd' ++ "/" ++ cn'))) = true
    · rw [if_pos hd1] at herr
      injection herr with h
      exact ChartErr.noConfusion h
    · rw [if_neg hd1] at herr
      by_cases hd2 :
          (!(fs'.pathExists (cd' ++ "/" ++ cn' ++ "/Chart.yaml"))) = true
      · rw [if_pos hd2] at herr
        injection herr with h
        exact ChartErr.noConfusion h
      · rw [if_neg hd2] at herr
        cases hy : fs'.readYaml (cd' ++ "/" ++ cn' ++ "/Chart.yaml") with
        | ioError =>
          rw [hy] at herr
          injection herr with h
          exact ChartErr.noConfusion h
        | parseError => exact Or.inl rfl
        | parsed v =>
          rw [hy] at herr
          cases v with
          | map es' =>
            cases hfd : ChartMetadata.from_dict es' with
            | ok md =>
              simp only [hfd] at herr
              exact Except.noConfusion herr
            | error e =>
              simp only [hfd] at herr
              injection herr with h
              exact ChartErr.noConfusion h
          | null => exact Or.inr ⟨.null, rfl, fun es' h => YamlVal.noConfusion h⟩
          | bool b =>
            exact Or.inr ⟨.bool b, rfl, fun es' h => YamlVal.noConfusion h⟩
          | int n =>
            exact Or.inr ⟨.int n, rfl, fun es' h => YamlVal.noConfusion h⟩
          | str s =>
            exact Or.inr ⟨.str s, rfl, fun es' h => YamlVal.noConfusion h⟩
          | list xs =>
            exact Or.inr ⟨.list xs, rfl, fun es' h => YamlVal.noConfusion h⟩

theorem read_metadata_missing_fields_default_witness :
    ∃ md, read_chart_metadata wFSEmptyMeta "charts" "plain" = .ok md
      ∧ md.name = "" ∧ md.version = "" ∧ md.app_version = "" := by
  obtain ⟨⟨md, hmd, h1, h2, h3⟩, -⟩ :=
    read_metadata_missing_fields_default wFSEmptyMeta "charts" "plain" []
      rfl rfl rfl (fun v hv => nomatch hv)
  exact ⟨md, hmd, h1 rfl, h2 rfl, h3 rfl⟩

/-- C10 counterexample: the manifest of chart `bad` parses to the YAML
mapping `{dependencies: 1}` (fields name/version/appVersion absent),
yet `read_chart_metadata` does not succeed — `list(1)` raises a
`TypeError` that nothing catches — so "readMetadata succeeds for every
mapping" is false as stated. -/
theorem read_metadata_typeerror_cex :
    cexFSBadDeps.readYaml "charts/bad/Chart.yaml"
        = .parsed (.map [("dependencies", .int 1)])
    ∧ read_chart_metadata cexFSBadDeps "charts" "bad" = .error .typeError :=
  ⟨rfl, rfl⟩
